import Mathlib

/-!
Shallow embedding of the AR gesture / pose-smoothing core of the repository.

Sources embedded:
* `src/utils/kalman.ts` — classes `KalmanFilter` and `PoseSmoother`
  (scalar Kalman filter and the six-axis pose smoother).
* `src/components/ARViewer.tsx` (first revision in the file, the one the
  claims cite) — the pointer-gesture handlers `handlePointerDown`,
  `handlePointerMove`, `handlePointerUp` of `ARSceneContent`, the pointer
  registry (a JavaScript `Map` is insertion ordered, embedded as an
  association list), and the commit emitted through `onTransformChange`.

JavaScript numbers are modelled by real numbers; where the IEEE-754
special values NaN and the two infinities can actually arise in the code
(the pinch-scale expression divides by a stored distance that can be 0)
the embedding uses the type `JSNum`, real numbers extended with the three
special values, with the JavaScript semantics of division,
multiplication, `Math.min`, `Math.max` and truthiness on those values.
-/

namespace ARApp

/-! ## Scalar Kalman filter, src/utils/kalman.ts lines 7-33 -/

/-- JavaScript (IEEE-754 double) numbers, idealized: a real number or one of
the special values NaN, positive infinity, negative infinity. -/
inductive JSNum where
  | fin (v : ℝ) : JSNum
  | posInf : JSNum
  | negInf : JSNum
  | nan : JSNum

/-- JavaScript division `a / b` for finite operands with a nonnegative-zero
divisor (the only zero divisor arising in the embedded code is a stored
distance, which is nonnegative): `0 / 0` is NaN, `a / 0` for nonzero `a` is
an infinity of the sign of `a`, otherwise ordinary division. -/
noncomputable def jsDiv (a b : ℝ) : JSNum :=
  if b = 0 then
    if a = 0 then JSNum.nan else if 0 < a then JSNum.posInf else JSNum.negInf
  else JSNum.fin (a / b)

/-- JavaScript multiplication on `JSNum`: NaN is absorbing; a zero times an
infinity is NaN; otherwise infinities follow the sign rule. -/
noncomputable def jsMul (a b : JSNum) : JSNum :=
  match a, b with
  | JSNum.nan, _ => JSNum.nan
  | _, JSNum.nan => JSNum.nan
  | JSNum.fin x, JSNum.fin y => JSNum.fin (x * y)
  | JSNum.fin x, JSNum.posInf =>
      if x = 0 then JSNum.nan else if 0 < x then JSNum.posInf else JSNum.negInf
  | JSNum.fin x, JSNum.negInf =>
      if x = 0 then JSNum.nan else if 0 < x then JSNum.negInf else JSNum.posInf
  | JSNum.posInf, JSNum.fin y =>
      if y = 0 then JSNum.nan else if 0 < y then JSNum.posInf else JSNum.negInf
  | JSNum.negInf, JSNum.fin y =>
      if y = 0 then JSNum.nan else if 0 < y then JSNum.negInf else JSNum.posInf
  | JSNum.posInf, JSNum.posInf => JSNum.posInf
  | JSNum.posInf, JSNum.negInf => JSNum.negInf
  | JSNum.negInf, JSNum.posInf => JSNum.negInf
  | JSNum.negInf, JSNum.negInf => JSNum.posInf

/-- JavaScript `Math.min(c, v)` with a finite first argument: NaN propagates,
otherwise the usual minimum with infinities at the extremes. -/
noncomputable def jsMin (c : ℝ) (v : JSNum) : JSNum :=
  match v with
  | JSNum.nan => JSNum.nan
  | JSNum.posInf => JSNum.fin c
  | JSNum.negInf => JSNum.negInf
  | JSNum.fin x => JSNum.fin (min c x)

/-- JavaScript `Math.max(c, v)` with a finite first argument: NaN propagates,
otherwise the usual maximum with infinities at the extremes. -/
noncomputable def jsMax (c : ℝ) (v : JSNum) : JSNum :=
  match v with
  | JSNum.nan => JSNum.nan
  | JSNum.posInf => JSNum.posInf
  | JSNum.negInf => JSNum.fin c
  | JSNum.fin x => JSNum.fin (max c x)

/-- JavaScript `v || 1` (ARViewer.tsx line 96 applies it to a scale value):
`0` and NaN are falsy and give 1; any other number, infinities included, is
returned unchanged. -/
noncomputable def jsTruthyOrOne (v : JSNum) : JSNum :=
  match v with
  | JSNum.nan => JSNum.fin 1
  | JSNum.fin x => if x = 0 then JSNum.fin 1 else JSNum.fin x
  | w => w

/-- State of `class KalmanFilter`: process noise `q`, measurement noise `r`,
current estimate `x`, error covariance `p`, Kalman gain `k`. -/
structure KalmanFilter where
  q : ℝ
  r : ℝ
  x : ℝ
  p : ℝ
  k : ℝ

/-- The TS constructor (kalman.ts lines 14-20): stores the two noise
parameters as passed (defaults 0.01 and 0.1) and sets p = 1, x = 0, k = 0.
No validation of the parameters is performed. -/
def KalmanFilter.init (processNoise measurementNoise : ℝ) : KalmanFilter :=
  { q := processNoise, r := measurementNoise, x := 0, p := 1, k := 0 }

/-- Method `filter(measurement)` (kalman.ts lines 22-32): prediction update
`p = p + q`; then measurement update `k = p / (p + r)`,
`x = x + k * (measurement - x)`, `p = (1 - k) * p`; returns the new `x`.
The result is the returned value paired with the mutated state. -/
noncomputable def KalmanFilter.filter (s : KalmanFilter) (measurement : ℝ) :
    ℝ × KalmanFilter :=
  let p1 := s.p + s.q
  let k1 := p1 / (p1 + s.r)
  let x1 := s.x + k1 * (measurement - s.x)
  let p2 := (1 - k1) * p1
  (x1, { s with x := x1, p := p2, k := k1 })

/-- Folding `filter` over a list of measurements, keeping the final state. -/
noncomputable def KalmanFilter.runFilter (s : KalmanFilter) : List ℝ → KalmanFilter
  | [] => s
  | m :: ms => KalmanFilter.runFilter (s.filter m).2 ms

/-! ## PoseSmoother, src/utils/kalman.ts lines 38-66 -/

/-- State of `class PoseSmoother`: three position-axis filters
(`filters.pos[0..2]`) and three rotation-axis filters (`filters.rot[0..2]`). -/
structure PoseSmoother where
  pos0 : KalmanFilter
  pos1 : KalmanFilter
  pos2 : KalmanFilter
  rot0 : KalmanFilter
  rot1 : KalmanFilter
  rot2 : KalmanFilter

/-- The TS constructor (kalman.ts lines 44-49): position filters get noise
(0.005, 0.05), rotation filters get noise (0.01, 0.1). -/
def PoseSmoother.init : PoseSmoother :=
  { pos0 := KalmanFilter.init 0.005 0.05
    pos1 := KalmanFilter.init 0.005 0.05
    pos2 := KalmanFilter.init 0.005 0.05
    rot0 := KalmanFilter.init 0.01 0.1
    rot1 := KalmanFilter.init 0.01 0.1
    rot2 := KalmanFilter.init 0.01 0.1 }

/-- `smoothPosition(x, y, z)` (kalman.ts lines 51-57): feeds each coordinate
to its own position-axis filter and returns the three filtered values. -/
noncomputable def PoseSmoother.smoothPosition (s : PoseSmoother) (x y z : ℝ) :
    (ℝ × ℝ × ℝ) × PoseSmoother :=
  let r0 := s.pos0.filter x
  let r1 := s.pos1.filter y
  let r2 := s.pos2.filter z
  ((r0.1, r1.1, r2.1), { s with pos0 := r0.2, pos1 := r1.2, pos2 := r2.2 })

/-- `smoothRotation(x, y, z)` (kalman.ts lines 59-65): feeds each coordinate
to its own rotation-axis filter and returns the three filtered values. -/
noncomputable def PoseSmoother.smoothRotation (s : PoseSmoother) (x y z : ℝ) :
    (ℝ × ℝ × ℝ) × PoseSmoother :=
  let r0 := s.rot0.filter x
  let r1 := s.rot1.filter y
  let r2 := s.rot2.filter z
  ((r0.1, r1.1, r2.1), { s with rot0 := r0.2, rot1 := r1.2, rot2 := r2.2 })

/-! ## Gesture handlers, src/components/ARViewer.tsx (ARSceneContent) -/

/-- A 2D screen point (`THREE.Vector2`). -/
structure Vec2 where
  x : ℝ
  y : ℝ

/-- A 3D point (`THREE.Vector3`). -/
structure Vec3 where
  x : ℝ
  y : ℝ
  z : ℝ

/-- `THREE.Vector2.distanceTo`: Euclidean distance of two screen points. -/
noncomputable def distanceTo (a b : Vec2) : ℝ :=
  Real.sqrt ((a.x - b.x) ^ 2 + (a.y - b.y) ^ 2)

/-- `THREE.MathUtils.radToDeg`. -/
noncomputable def radToDeg (r : ℝ) : ℝ :=
  r * 180 / Real.pi

/-- `pointers.current.set(id, p)` on a JavaScript `Map`, which is insertion
ordered: overwrite in place when the key is present, append otherwise. -/
def mapSet (m : List (ℕ × Vec2)) (id : ℕ) (p : Vec2) : List (ℕ × Vec2) :=
  if m.any (fun e => e.1 == id) then
    m.map (fun e => if e.1 = id then (id, p) else e)
  else m ++ [(id, p)]

/-- `pointers.current.delete(id)` on a JavaScript `Map`. -/
def mapDelete (m : List (ℕ × Vec2)) (id : ℕ) : List (ℕ × Vec2) :=
  m.filter (fun e => e.1 ≠ id)

/-- The mutable scene state the three pointer handlers touch: the pointer
registry (`pointers.current`), the root group position, the root group
scalar scale (`setScalar` keeps the three components equal, so one value is
tracked), the root group rotation about y (mutated only by the `useFrame`
auto-rotate tick), the React state `rotationOffset` (read by the commit;
its setter is never invoked in this revision), and the two pinch baselines
`initialPinchDist.current` and `initialPinchScale.current`. -/
structure SceneState where
  pointers : List (ℕ × Vec2)
  position : Vec3
  scaleX : JSNum
  rotationY : ℝ
  rotationOffset : ℝ
  initialPinchDist : ℝ
  initialPinchScale : JSNum

/-- The component state at mount: empty registry, position and scale from
`experience.transform`, root rotation 0, `rotationOffset` initialized from
`experience.transform.rotation.y`, `initialPinchDist` initialized 0,
`initialPinchScale` initialized from `experience.transform.scale.x`. -/
def initialScene (pos : Vec3) (rotY scale0 : ℝ) : SceneState :=
  { pointers := []
    position := pos
    scaleX := JSNum.fin scale0
    rotationY := 0
    rotationOffset := rotY
    initialPinchDist := 0
    initialPinchScale := JSNum.fin scale0 }

/-- Ambient values the handlers read: the configuration flag
`experience.config.gestureControl`, the viewport size, and the fixed-camera
raycast `raycaster.setFromCamera` followed by
`raycaster.ray.intersectPlane(dragPlane, ...)`, abstracted as a function
from the normalized device coordinates to an optional plane point. -/
structure GestureEnv where
  gestureControl : Bool
  width : ℝ
  height : ℝ
  project : Vec2 → Option Vec3

/-- Normalized device coordinates of a client point (ARViewer.tsx line 105):
`((clientX / width) * 2 - 1, -(clientY / height) * 2 + 1)`. -/
noncomputable def ndcOf (env : GestureEnv) (cx cy : ℝ) : Vec2 :=
  { x := (cx / env.width) * 2 - 1, y := -(cy / env.height) * 2 + 1 }

/-- The pinch-scale expression of ARViewer.tsx line 113:
`Math.max(0.05, Math.min(20, initialPinchScale * (dist / initialPinchDist)))`,
with the hard-coded bounds 0.05 and 20. -/
noncomputable def newScale (initialPinchScale : JSNum) (initialPinchDist dist : ℝ) :
    JSNum :=
  jsMax 0.05 (jsMin 20 (jsMul initialPinchScale (jsDiv dist initialPinchDist)))

/-- `handlePointerDown` (ARViewer.tsx lines 89-98): ignored when
`gestureControl` is false; otherwise records the pointer and, when the
registry reaches exactly two entries, snapshots the pinch baselines
`initialPinchDist = pts[0].distanceTo(pts[1])` and
`initialPinchScale = rootRef.current?.scale.x || 1`. -/
noncomputable def handlePointerDown (env : GestureEnv) (s : SceneState)
    (id : ℕ) (cx cy : ℝ) : SceneState :=
  if env.gestureControl = false then s
  else
    let pts := mapSet s.pointers id { x := cx, y := cy }
    if pts.length = 2 then
      let p0 := (pts.map Prod.snd).getD 0 { x := 0, y := 0 }
      let p1 := (pts.map Prod.snd).getD 1 { x := 0, y := 0 }
      { s with pointers := pts
               initialPinchDist := distanceTo p0 p1
               initialPinchScale := jsTruthyOrOne s.scaleX }
    else { s with pointers := pts }

/-- `handlePointerMove` (ARViewer.tsx lines 100-116): ignored when
`gestureControl` is false; otherwise records the pointer, then with exactly
one active pointer raycasts through the NDC of the event and copies a hit
into the root position, and with exactly two active pointers sets the root
scale to `newScale` of the current inter-pointer distance. -/
noncomputable def handlePointerMove (env : GestureEnv) (s : SceneState)
    (id : ℕ) (cx cy : ℝ) : SceneState :=
  if env.gestureControl = false then s
  else
    let pts := mapSet s.pointers id { x := cx, y := cy }
    if pts.length = 1 then
      match env.project (ndcOf env cx cy) with
      | some pt => { s with pointers := pts, position := pt }
      | none => { s with pointers := pts }
    else if pts.length = 2 then
      let p0 := (pts.map Prod.snd).getD 0 { x := 0, y := 0 }
      let p1 := (pts.map Prod.snd).getD 1 { x := 0, y := 0 }
      let dist := distanceTo p0 p1
      { s with pointers := pts
               scaleX := newScale s.initialPinchScale s.initialPinchDist dist }
    else { s with pointers := pts }

/-- The payload of a commit event: the position, the y component of the
rotation in degrees (the emitted x and z components are the constant 0),
and the uniform scale component. -/
structure Commit where
  position : Vec3
  rotationYDeg : ℝ
  scaleX : JSNum

/-- The transform packaged by `onTransformChange` (ARViewer.tsx lines
121-125): the live position, rotation `(0, radToDeg(rotationOffset), 0)` of
which the y component is kept, and the live scale. -/
noncomputable def mkCommit (s : SceneState) : Commit :=
  { position := s.position
    rotationYDeg := radToDeg s.rotationOffset
    scaleX := s.scaleX }

/-- `handlePointerUp` (ARViewer.tsx lines 118-127): deletes the pointer
unconditionally (this handler has no `gestureControl` guard) and, when the
registry is empty afterwards, emits the commit. -/
noncomputable def handlePointerUp (s : SceneState) (id : ℕ) :
    SceneState × Option Commit :=
  let pts := mapDelete s.pointers id
  let s1 := { s with pointers := pts }
  if pts.length = 0 then (s1, some (mkCommit s1)) else (s1, none)

/-- One pointer event, as delivered to the three handlers. -/
inductive PointerEvent where
  | down (id : ℕ) (cx cy : ℝ) : PointerEvent
  | move (id : ℕ) (cx cy : ℝ) : PointerEvent
  | up (id : ℕ) : PointerEvent

/-- Dispatch of one event to its handler; only pointer-up can emit a commit. -/
noncomputable def step (env : GestureEnv) (s : SceneState) :
    PointerEvent → SceneState × Option Commit
  | PointerEvent.down id cx cy => (handlePointerDown env s id cx cy, none)
  | PointerEvent.move id cx cy => (handlePointerMove env s id cx cy, none)
  | PointerEvent.up id => handlePointerUp s id

/-- Processing a sequence of pointer events in arrival order, collecting the
emitted commits. -/
noncomputable def run (env : GestureEnv) (s : SceneState) :
    List PointerEvent → SceneState × List Commit
  | [] => (s, [])
  | e :: es =>
    let r := step env s e
    let rest := run env r.1 es
    (rest.1, r.2.toList ++ rest.2)

/-- The `useFrame` auto-rotate tick (ARViewer.tsx lines 84-86): with
`autoRotate` enabled and no active pointer, the root rotation about y
advances by 0.005 each frame; this is the only place any rotation of the
root is mutated. -/
def frameTick (autoRotate : Bool) (s : SceneState) : SceneState :=
  if autoRotate && s.pointers.length == 0 then
    { s with rotationY := s.rotationY + 0.005 }
  else s

/-- Successful plane projections of a list of single-pointer move targets,
in order: for each screen point, `project` applied to its NDC, the misses
dropped. -/
noncomputable def projList (env : GestureEnv) (ms : List Vec2) : List Vec3 :=
  ms.filterMap (fun q => env.project (ndcOf env q.x q.y))

/-! ## Theorems -/

/-- Claim C1: every call of `KalmanFilter.filter` updates the state in
exactly this order — p = p + q, then k = p / (p + r) on the predicted p,
then x = x + k (measurement - x) with that gain, then p = (1 - k) p on the
predicted p — and returns the updated x; the constructor initializes the
estimator with x = 0 and p = 1. -/
theorem C1_scalar_update_order (s : KalmanFilter) (m q0 r0 : ℝ) :
    (s.filter m).2.k = (s.p + s.q) / ((s.p + s.q) + s.r) ∧
    (s.filter m).2.x = s.x + ((s.p + s.q) / ((s.p + s.q) + s.r)) * (m - s.x) ∧
    (s.filter m).2.p = (1 - (s.p + s.q) / ((s.p + s.q) + s.r)) * (s.p + s.q) ∧
    (s.filter m).1 = (s.filter m).2.x ∧
    (KalmanFilter.init q0 r0).x = 0 ∧ (KalmanFilter.init q0 r0).p = 1 :=
  ⟨rfl, rfl, rfl, rfl, rfl, rfl⟩

/-- One `filter` call from a state with positive noise parameters and a
nonnegative covariance keeps the covariance nonnegative, keeps the gain in
[0, 1], and leaves the noise parameters unchanged. -/
theorem filter_state_bounds (s : KalmanFilter) (m : ℝ)
    (hq : 0 < s.q) (hr : 0 < s.r) (hp : 0 ≤ s.p) :
    0 ≤ (s.filter m).2.p ∧ 0 ≤ (s.filter m).2.k ∧ (s.filter m).2.k ≤ 1 ∧
    (s.filter m).2.q = s.q ∧ (s.filter m).2.r = s.r := by
  have hp1 : 0 < s.p + s.q := by linarith
  have hd : 0 < s.p + s.q + s.r := by linarith
  have hk0 : 0 ≤ (s.p + s.q) / (s.p + s.q + s.r) := by positivity
  have hk1 : (s.p + s.q) / (s.p + s.q + s.r) ≤ 1 := by
    rw [div_le_one hd]
    linarith
  refine ⟨?_, hk0, hk1, rfl, rfl⟩
  show 0 ≤ (1 - (s.p + s.q) / (s.p + s.q + s.r)) * (s.p + s.q)
  exact mul_nonneg (by linarith) (le_of_lt hp1)

/-- Running `filter` over any measurement list from a state with positive
noise, nonnegative covariance and a gain in [0, 1] preserves all three. -/
theorem runFilter_invariant (ms : List ℝ) (s : KalmanFilter)
    (hq : 0 < s.q) (hr : 0 < s.r) (hp : 0 ≤ s.p)
    (hk0 : 0 ≤ s.k) (hk1 : s.k ≤ 1) :
    0 ≤ (s.runFilter ms).p ∧ 0 ≤ (s.runFilter ms).k ∧ (s.runFilter ms).k ≤ 1 := by
  induction ms generalizing s with
  | nil => exact ⟨hp, hk0, hk1⟩
  | cons m ms ih =>
    obtain ⟨h1, h2, h3, h4, h5⟩ := filter_state_bounds s m hq hr hp
    have hres := ih (s.filter m).2 (by rw [h4]; exact hq) (by rw [h5]; exact hr) h1 h2 h3
    simpa [KalmanFilter.runFilter] using hres

/-- Claim C8: for every estimator constructed with q greater than 0 and r
greater than 0 and every sequence of measurements, after every call of
`filter` the covariance p is nonnegative and the gain k lies in [0, 1]. -/
theorem C8_covariance_gain_invariant (q0 r0 : ℝ) (hq : 0 < q0) (hr : 0 < r0)
    (ms : List ℝ) :
    0 ≤ ((KalmanFilter.init q0 r0).runFilter ms).p ∧
    0 ≤ ((KalmanFilter.init q0 r0).runFilter ms).k ∧
    ((KalmanFilter.init q0 r0).runFilter ms).k ≤ 1 :=
  runFilter_invariant ms (KalmanFilter.init q0 r0) hq hr
    (by norm_num [KalmanFilter.init]) (by norm_num [KalmanFilter.init])
    (by norm_num [KalmanFilter.init])

/-- Witness for claim C8 at q = 1, r = 2 and the measurements [5, -3]. -/
theorem C8_covariance_gain_invariant_witness :
    (0:ℝ) < 1 ∧ (0:ℝ) < 2 ∧
    (0 ≤ ((KalmanFilter.init 1 2).runFilter [5, -3]).p ∧
     0 ≤ ((KalmanFilter.init 1 2).runFilter [5, -3]).k ∧
     ((KalmanFilter.init 1 2).runFilter [5, -3]).k ≤ 1) :=
  ⟨by norm_num, by norm_num,
   C8_covariance_gain_invariant 1 2 (by norm_num) (by norm_num) [5, -3]⟩

/-- Claim C9 counterexample: constructing with processNoise = -1 stores
q = -1, so q greater than 0 does not hold after construction — the
constructor neither rejects nor clamps the parameters. -/
theorem C9_counterexample :
    ¬ 0 < (KalmanFilter.init (-1) 0.1).q := by
  norm_num [KalmanFilter.init]

/-- Claim C9 amended: the constructor stores the two noise parameters
exactly as passed with no validation, so q greater than 0 and r greater
than 0 hold after construction precisely when the passed values are
positive. -/
theorem C9_amended_no_validation (a b : ℝ) :
    (KalmanFilter.init a b).q = a ∧ (KalmanFilter.init a b).r = b ∧
    ((0 < (KalmanFilter.init a b).q ∧ 0 < (KalmanFilter.init a b).r) ↔
      (0 < a ∧ 0 < b)) :=
  ⟨rfl, rfl, Iff.rfl⟩

/-- Claim C10: `smoothPosition` feeds each position axis its own component
and leaves the three rotation-axis filter states unchanged, and
`smoothRotation` feeds each rotation axis its own component and leaves the
three position-axis filter states unchanged. -/
theorem C10_axis_independence (s : PoseSmoother) (x y z : ℝ) :
    (s.smoothPosition x y z).2.rot0 = s.rot0 ∧
    (s.smoothPosition x y z).2.rot1 = s.rot1 ∧
    (s.smoothPosition x y z).2.rot2 = s.rot2 ∧
    (s.smoothRotation x y z).2.pos0 = s.pos0 ∧
    (s.smoothRotation x y z).2.pos1 = s.pos1 ∧
    (s.smoothRotation x y z).2.pos2 = s.pos2 ∧
    (s.smoothPosition x y z).2.pos0 = (s.pos0.filter x).2 ∧
    (s.smoothPosition x y z).2.pos1 = (s.pos1.filter y).2 ∧
    (s.smoothPosition x y z).2.pos2 = (s.pos2.filter z).2 ∧
    (s.smoothPosition x y z).1 = ((s.pos0.filter x).1, (s.pos1.filter y).1, (s.pos2.filter z).1) ∧
    (s.smoothRotation x y z).2.rot0 = (s.rot0.filter x).2 ∧
    (s.smoothRotation x y z).2.rot1 = (s.rot1.filter y).2 ∧
    (s.smoothRotation x y z).2.rot2 = (s.rot2.filter z).2 ∧
    (s.smoothRotation x y z).1 = ((s.rot0.filter x).1, (s.rot1.filter y).1, (s.rot2.filter z).1) :=
  ⟨rfl, rfl, rfl, rfl, rfl, rfl, rfl, rfl, rfl, rfl, rfl, rfl, rfl, rfl⟩

/-- Distance of a point to itself is 0. -/
theorem distanceTo_self (p : Vec2) : distanceTo p p = 0 := by
  simp [distanceTo]

/-- Distance of two points on a horizontal line. -/
theorem distanceTo_horizontal (x1 x2 y : ℝ) (h : x1 ≤ x2) :
    distanceTo { x := x1, y := y } { x := x2, y := y } = x2 - x1 := by
  unfold distanceTo
  rw [show (x1 - x2) ^ 2 + (y - y) ^ 2 = (x2 - x1) ^ 2 by ring]
  exact Real.sqrt_sq (by linarith)

/-- A gesture environment with gestures enabled and a raycast that never
hits the plane (sufficient for the pinch scenarios, which never read it). -/
noncomputable def envOn : GestureEnv :=
  { gestureControl := true, width := 800, height := 600, project := fun _ => none }

/-- The scene at mount used by the pinch scenarios: position at the origin,
rotation 0, scale 1. -/
noncomputable def scene1 : SceneState :=
  initialScene { x := 0, y := 0, z := 0 } 0 1

/-- Claim C2 (evaluation of the code at the failing input): with a pinch
begun from two coincident pointers, so that the recorded initialDistance is
exactly 0 and the recorded initialScale is 1, a subsequent two-pointer move
with the pointers still coincident sets the live scale to NaN, and one with
the pointers 150 apart sets it to the hard bound 20 — in neither case the
unchanged initialScale 1 the claim requires. -/
theorem C2_degenerate_pinch_behavior :
    (run envOn scene1
      [PointerEvent.down 1 10 20, PointerEvent.down 2 10 20,
       PointerEvent.move 2 10 20]).1.scaleX = JSNum.nan ∧
    (run envOn scene1
      [PointerEvent.down 1 10 20, PointerEvent.down 2 10 20,
       PointerEvent.move 2 160 20]).1.scaleX = JSNum.fin 20 ∧
    JSNum.fin (20:ℝ) ≠ JSNum.fin 1 := by
  have hd : distanceTo { x := 10, y := 20 } { x := 160, y := 20 } = 150 := by
    rw [distanceTo_horizontal 10 160 20 (by norm_num)]
    norm_num
  refine ⟨?_, ?_, by norm_num⟩
  · simp [run, step, handlePointerDown, handlePointerMove, envOn, scene1,
          initialScene, mapSet, newScale, jsDiv, jsMul, jsMin, jsMax,
          jsTruthyOrOne, distanceTo_self]
  · norm_num [run, step, handlePointerDown, handlePointerMove, envOn, scene1,
              initialScene, mapSet, newScale, jsDiv, jsMul, jsMin, jsMax,
              jsTruthyOrOne, distanceTo_self, hd]

/-- Modelled from the spec for comparison (section 4.5): the claimed pinch
scale clamp(initialScale * (dist / initialDistance), minScale, maxScale)
with configured bounds minScale and maxScale. -/
noncomputable def specPinchScale (initialScale initialDistance dist lo hi : ℝ) : ℝ :=
  max lo (min hi (initialScale * (dist / initialDistance)))

/-- Claim C4 counterexample: with the bounds the claim itself supplies
(minScale = 0.1, maxScale = 10), a pinch recorded at initialDistance = 100
and initialScale = 1 moved to distance 1500 yields live scale 15 in the
code — the code clamps to its hard-coded bounds 0.05 and 20, not to the
configured bounds, under which the claimed formula gives 10. -/
theorem C4_counterexample :
    (run envOn scene1
      [PointerEvent.down 1 0 0, PointerEvent.down 2 100 0,
       PointerEvent.move 2 1500 0]).1.scaleX = JSNum.fin 15 ∧
    specPinchScale 1 100 1500 0.1 10 = 10 ∧
    (15:ℝ) ≠ 10 := by
  have hd0 : distanceTo { x := 0, y := 0 } { x := 100, y := 0 } = 100 := by
    rw [distanceTo_horizontal 0 100 0 (by norm_num)]
    norm_num
  have hd1 : distanceTo { x := 0, y := 0 } { x := 1500, y := 0 } = 1500 := by
    rw [distanceTo_horizontal 0 1500 0 (by norm_num)]
    norm_num
  refine ⟨?_, ?_, by norm_num⟩
  · norm_num [run, step, handlePointerDown, handlePointerMove, envOn, scene1,
              initialScene, mapSet, newScale, jsDiv, jsMul, jsMin, jsMax,
              jsTruthyOrOne, hd0, hd1]
  · norm_num [specPinchScale]

/-- Claim C4 amended: the scale bounds are the hard-coded constants 0.05 and
20, not configured values; for a recorded initialDistance greater than 0 the
solved scale is clamp(initialScale * (dist / initialDistance), 0.05, 20),
and the concrete scenario initialDistance = 100, initialScale = 1,
distance = 150 yields 1.5. -/
theorem C4_amended_hardcoded_bounds (s0 d0 d : ℝ) (h0 : 0 < d0) :
    newScale (JSNum.fin s0) d0 d = JSNum.fin (max 0.05 (min 20 (s0 * (d / d0)))) ∧
    (run envOn scene1
      [PointerEvent.down 1 0 0, PointerEvent.down 2 100 0,
       PointerEvent.move 2 150 0]).1.scaleX = JSNum.fin 1.5 := by
  have hd0 : distanceTo { x := 0, y := 0 } { x := 100, y := 0 } = 100 := by
    rw [distanceTo_horizontal 0 100 0 (by norm_num)]
    norm_num
  have hd1 : distanceTo { x := 0, y := 0 } { x := 150, y := 0 } = 150 := by
    rw [distanceTo_horizontal 0 150 0 (by norm_num)]
    norm_num
  constructor
  · simp [newScale, jsDiv, jsMul, jsMin, jsMax, h0.ne.symm]
  · norm_num [run, step, handlePointerDown, handlePointerMove, envOn, scene1,
              initialScene, mapSet, newScale, jsDiv, jsMul, jsMin, jsMax,
              jsTruthyOrOne, hd0, hd1]

/-- Witness for the amended claim C4 at initialScale = 2, initialDistance =
100, distance = 50. -/
theorem C4_amended_hardcoded_bounds_witness :
    (0:ℝ) < 100 ∧
    (newScale (JSNum.fin 2) 100 50 = JSNum.fin (max 0.05 (min 20 (2 * (50 / 100)))) ∧
     (run envOn scene1
       [PointerEvent.down 1 0 0, PointerEvent.down 2 100 0,
        PointerEvent.move 2 150 0]).1.scaleX = JSNum.fin 1.5) :=
  ⟨by norm_num, C4_amended_hardcoded_bounds 2 100 50 (by norm_num)⟩

/-- Modelled from the spec for comparison (section 4.5): the two-argument
arctangent atan2(y, x). -/
noncomputable def atan2 (y x : ℝ) : ℝ :=
  if 0 < x then Real.arctan (y / x)
  else if x < 0 then
    if 0 ≤ y then Real.arctan (y / x) + Real.pi
    else Real.arctan (y / x) - Real.pi
  else
    if 0 < y then Real.pi / 2 else if y < 0 then -(Real.pi / 2) else 0

/-- Modelled from the spec for comparison (section 4.5): the claimed twist
rotation = initialRotation - (angle - initialAngle). -/
noncomputable def specPinchRotation (initialRotation initialAngle angle : ℝ) : ℝ :=
  initialRotation - (angle - initialAngle)

/-- Claim C6 counterexample: a pinch begun with pointers (0,0) and (100,0)
(pair angle 0) and moved so the pair stands at (0,0) and (0,100) (pair
angle pi/2) leaves both the live root rotation and the committed rotation
source unchanged at 0, while the claimed formula yields -(pi/2), which is
not 0 — the code computes no twist rotation at all. -/
theorem C6_counterexample :
    (run envOn scene1
      [PointerEvent.down 1 0 0, PointerEvent.down 2 100 0,
       PointerEvent.move 2 0 100]).1.rotationY = 0 ∧
    (run envOn scene1
      [PointerEvent.down 1 0 0, PointerEvent.down 2 100 0,
       PointerEvent.move 2 0 100]).1.rotationOffset = 0 ∧
    specPinchRotation 0 (atan2 0 100) (atan2 100 0) = -(Real.pi / 2) ∧
    -(Real.pi / 2) ≠ (0:ℝ) := by
  refine ⟨?_, ?_, ?_, ?_⟩
  · simp [run, step, handlePointerDown, handlePointerMove, envOn, scene1,
          initialScene, mapSet]
  · simp [run, step, handlePointerDown, handlePointerMove, envOn, scene1,
          initialScene, mapSet]
  · norm_num [specPinchRotation, atan2, Real.arctan_zero]
  · have hpi := Real.pi_pos
    intro h
    nlinarith

/-- Claim C6 amended: no pointer event modifies any rotation state — the
two-pointer move branch updates only the scale, and neither the live root
rotation nor the rotationOffset read by the commit is ever written by the
pointer handlers. -/
theorem C6_amended_no_twist (env : GestureEnv) (s : SceneState) (e : PointerEvent) :
    (step env s e).1.rotationY = s.rotationY ∧
    (step env s e).1.rotationOffset = s.rotationOffset := by
  cases e with
  | down id cx cy =>
    simp only [step, handlePointerDown]
    split_ifs <;> exact ⟨rfl, rfl⟩
  | move id cx cy =>
    simp only [step, handlePointerMove]
    split_ifs
    · exact ⟨rfl, rfl⟩
    · cases env.project (ndcOf env cx cy) <;> exact ⟨rfl, rfl⟩
    · exact ⟨rfl, rfl⟩
    · exact ⟨rfl, rfl⟩
  | up id =>
    simp only [step, handlePointerUp]
    split_ifs <;> exact ⟨rfl, rfl⟩

/-- A gesture environment with gestures disabled. -/
noncomputable def envOff : GestureEnv :=
  { gestureControl := false, width := 800, height := 600, project := fun _ => none }

/-- Test of an event being a pointer-up. -/
def isUp : PointerEvent → Bool
  | PointerEvent.up _ => true
  | _ => false

/-- Claim C3 counterexample: with the gesture-control flag false, a single
pointer-up event (no pointer ever went down) emits a commit event —
`handlePointerUp` is not guarded by the flag and the registry is empty
after the deletion, so the commit fires. -/
theorem C3_counterexample :
    (run envOff scene1 [PointerEvent.up 7]).2 = [mkCommit scene1] := by
  simp [run, step, handlePointerUp, envOff, scene1, initialScene, mapDelete]

/-- Claim C3 amended: while the flag is false, pointer-down and pointer-move
events are ignored and the whole state (registry, transform, baselines) is
never modified, but pointer-up events are processed regardless of the flag:
starting from an empty registry, each pointer-up emits one commit event
carrying the unchanged transform. -/
theorem C3_amended_disabled (env : GestureEnv) (s : SceneState)
    (es : List PointerEvent) (hflag : env.gestureControl = false)
    (hs : s.pointers = []) :
    (run env s es).1 = s ∧
    (run env s es).2 =
      List.replicate (es.countP (fun e => isUp e)) (mkCommit s) := by
  induction es with
  | nil => exact ⟨rfl, rfl⟩
  | cons e es ih =>
    have hse : ({ s with pointers := [] } : SceneState) = s := by
      rw [← hs]
    cases e with
    | down id cx cy =>
      have hstep : step env s (PointerEvent.down id cx cy) = (s, none) := by
        simp [step, handlePointerDown, hflag]
      simpa [run, hstep, List.countP_cons, isUp] using ih
    | move id cx cy =>
      have hstep : step env s (PointerEvent.move id cx cy) = (s, none) := by
        simp [step, handlePointerMove, hflag]
      simpa [run, hstep, List.countP_cons, isUp] using ih
    | up id =>
      have hstep : step env s (PointerEvent.up id) = (s, some (mkCommit s)) := by
        simp [step, handlePointerUp, mapDelete, hs, hse]
      simpa [run, hstep, List.countP_cons, isUp, List.replicate_succ] using ih

/-- Witness for the amended claim C3: gestures disabled, one stray
pointer-up followed by a pointer-down. -/
theorem C3_amended_disabled_witness :
    envOff.gestureControl = false ∧ scene1.pointers = [] ∧
    ((run envOff scene1 [PointerEvent.up 7, PointerEvent.down 1 2 3]).1 = scene1 ∧
     (run envOff scene1 [PointerEvent.up 7, PointerEvent.down 1 2 3]).2 =
       List.replicate
         (([PointerEvent.up 7, PointerEvent.down 1 2 3]).countP (fun e => isUp e))
         (mkCommit scene1)) :=
  ⟨rfl, rfl, C3_amended_disabled envOff scene1
    [PointerEvent.up 7, PointerEvent.down 1 2 3] rfl rfl⟩

/-- The estimator of the convergence scenario: constructed with q = 0.01
and r = 0.1 and fed the constant measurement 1 repeatedly;
`constantOneState n` is the state after n calls. -/
noncomputable def constantOneState : ℕ → KalmanFilter
  | 0 => KalmanFilter.init 0.01 0.1
  | n + 1 => ((constantOneState n).filter 1).2

/-- The n-th returned output of the scenario, counted from 0: output n is
the value returned by call number n + 1. -/
noncomputable def constantOneOutput (n : ℕ) : ℝ :=
  (constantOneState (n + 1)).x

/-- One step of the constant-1 scenario from any state with the scenario
noise parameters and a nonnegative covariance: the covariance stays
nonnegative, the gain lands in [1/11, 1), the distance to 1 contracts by
the factor 1 - k, and the noise parameters persist. -/
theorem constantOne_step (s : KalmanFilter) (hq : s.q = 0.01) (hr : s.r = 0.1)
    (hp : 0 ≤ s.p) :
    0 ≤ (s.filter 1).2.p ∧
    (1 : ℝ) / 11 ≤ (s.filter 1).2.k ∧ (s.filter 1).2.k < 1 ∧
    1 - (s.filter 1).2.x = (1 - (s.filter 1).2.k) * (1 - s.x) ∧
    (s.filter 1).2.q = 0.01 ∧ (s.filter 1).2.r = 0.1 := by
  have ek : (s.filter 1).2.k = (s.p + s.q) / ((s.p + s.q) + s.r) := rfl
  have ex : (s.filter 1).2.x
      = s.x + ((s.p + s.q) / ((s.p + s.q) + s.r)) * (1 - s.x) := rfl
  have ep : (s.filter 1).2.p
      = (1 - (s.p + s.q) / ((s.p + s.q) + s.r)) * (s.p + s.q) := rfl
  have eq' : (s.filter 1).2.q = s.q := rfl
  have er : (s.filter 1).2.r = s.r := rfl
  have hA : (0.01 : ℝ) ≤ s.p + s.q := by rw [hq]; linarith
  have hD : (0 : ℝ) < (s.p + s.q) + s.r := by rw [hr]; linarith
  have hk1 : (1 : ℝ) / 11 ≤ (s.p + s.q) / ((s.p + s.q) + s.r) := by
    rw [div_le_div_iff₀ (by norm_num) hD]
    rw [hr]
    linarith
  have hk2 : (s.p + s.q) / ((s.p + s.q) + s.r) < 1 := by
    rw [div_lt_one hD]
    rw [hr]
    linarith
  refine ⟨?_, ?_, ?_, ?_, ?_, ?_⟩
  · rw [ep]
    exact mul_nonneg (by linarith) (by linarith)
  · rw [ek]; exact hk1
  · rw [ek]; exact hk2
  · rw [ex, ek]; ring
  · rw [eq', hq]
  · rw [er, hr]

/-- Invariant of the constant-1 scenario: the noise parameters persist, the
covariance stays nonnegative, and the distance of the estimate to 1 stays
strictly positive while shrinking at least geometrically with ratio 10/11. -/
theorem constantOne_invariant (n : ℕ) :
    (constantOneState n).q = 0.01 ∧ (constantOneState n).r = 0.1 ∧
    0 ≤ (constantOneState n).p ∧
    0 < 1 - (constantOneState n).x ∧
    1 - (constantOneState n).x ≤ (10 / 11) ^ n := by
  induction n with
  | zero =>
    refine ⟨rfl, rfl, ?_, ?_, ?_⟩ <;>
      norm_num [constantOneState, KalmanFilter.init]
  | succ n ih =>
    obtain ⟨hq, hr, hp, hx, hb⟩ := ih
    obtain ⟨h1, hk1, hk2, hxe, h5, h6⟩ := constantOne_step _ hq hr hp
    have estep : constantOneState (n + 1) = ((constantOneState n).filter 1).2 := rfl
    rw [estep]
    refine ⟨h5, h6, h1, ?_, ?_⟩
    · rw [hxe]
      exact mul_pos (by linarith) hx
    · rw [hxe]
      have hfac : 1 - ((constantOneState n).filter 1).2.k ≤ 10 / 11 := by linarith
      have hnn : 0 ≤ 1 - ((constantOneState n).filter 1).2.k := by linarith
      calc (1 - ((constantOneState n).filter 1).2.k) * (1 - (constantOneState n).x)
          ≤ (10 / 11) * ((10 / 11) ^ n) := by
            exact mul_le_mul hfac hb (by linarith) (by norm_num)
        _ = (10 / 11) ^ (n + 1) := by ring

/-- Claim C7: the estimator with q = 0.01 and r = 0.1 fed the constant
measurement 1 from its initial state x = 0, p = 1 returns a strictly
increasing sequence of outputs that converges to 1, and the first output
is approximately 0.909 (within 0.001 of it; its exact value is 101/111). -/
theorem C7_constant_input_convergence :
    StrictMono constantOneOutput ∧
    Filter.Tendsto constantOneOutput Filter.atTop (nhds 1) ∧
    |constantOneOutput 0 - 0.909| < 0.001 := by
  have hmono : StrictMono constantOneOutput := by
    apply strictMono_nat_of_lt_succ
    intro n
    obtain ⟨hq, hr, hp, hx, hb⟩ := constantOne_invariant (n + 1)
    obtain ⟨h1, hk1, hk2, hxe, h5, h6⟩ := constantOne_step _ hq hr hp
    have e1 : constantOneOutput n = (constantOneState (n + 1)).x := rfl
    have e2 : constantOneOutput (n + 1) = ((constantOneState (n + 1)).filter 1).2.x := rfl
    rw [e1, e2]
    have hkpos : 0 < ((constantOneState (n + 1)).filter 1).2.k := by linarith
    nlinarith [mul_pos hkpos hx]
  refine ⟨hmono, ?_, ?_⟩
  · have hup : ∀ n, 1 - constantOneOutput n ≤ (10 / 11) ^ (n + 1) := by
      intro n
      exact (constantOne_invariant (n + 1)).2.2.2.2
    have hlow : ∀ n, 0 ≤ 1 - constantOneOutput n := by
      intro n
      exact le_of_lt (constantOne_invariant (n + 1)).2.2.2.1
    have hpow : Filter.Tendsto (fun n : ℕ => ((10 : ℝ) / 11) ^ (n + 1))
        Filter.atTop (nhds 0) := by
      have hbase : Filter.Tendsto (fun n : ℕ => ((10 : ℝ) / 11) ^ n)
          Filter.atTop (nhds 0) :=
        tendsto_pow_atTop_nhds_zero_of_lt_one (by norm_num) (by norm_num)
      exact hbase.comp (Filter.tendsto_add_atTop_nat 1)
    have hdist : Filter.Tendsto (fun n => 1 - constantOneOutput n)
        Filter.atTop (nhds 0) :=
      tendsto_of_tendsto_of_tendsto_of_le_of_le tendsto_const_nhds hpow hlow hup
    have := hdist.const_sub 1
    simpa using this
  · have e0 : constantOneOutput 0 = 101 / 111 := by
      show ((KalmanFilter.init 0.01 0.1).filter 1).2.x = 101 / 111
      have : ((KalmanFilter.init 0.01 0.1).filter 1).2.x
          = (0 : ℝ) + ((1 + 0.01) / ((1 + 0.01) + 0.1)) * (1 - 0) := rfl
      rw [this]
      norm_num
    rw [e0, abs_sub_lt_iff]
    constructor <;> norm_num

/-- The registry after a `Map.set` is never empty. -/
theorem mapSet_ne_nil (m : List (ℕ × Vec2)) (id : ℕ) (p : Vec2) :
    mapSet m id p ≠ [] := by
  unfold mapSet
  split_ifs with h
  · intro hc
    rw [List.map_eq_nil_iff] at hc
    subst hc
    simp at h
  · simp

/-- Equation lemma: running no events changes nothing. -/
theorem run_nil (env : GestureEnv) (s : SceneState) : run env s [] = (s, []) := rfl

/-- Equation lemma: running a first event and then the rest. -/
theorem run_cons (env : GestureEnv) (s : SceneState) (e : PointerEvent)
    (es : List PointerEvent) :
    run env s (e :: es)
      = ((run env (step env s e).1 es).1,
         (step env s e).2.toList ++ (run env (step env s e).1 es).2) := rfl

/-- Running a concatenation of event lists chains the states and
concatenates the emitted commits. -/
theorem run_append (env : GestureEnv) (s : SceneState)
    (l1 l2 : List PointerEvent) :
    run env s (l1 ++ l2)
      = ((run env (run env s l1).1 l2).1,
         (run env s l1).2 ++ (run env (run env s l1).1 l2).2) := by
  induction l1 generalizing s with
  | nil => simp [run]
  | cons e l1 ih => simp [run, ih]

/-- A step whose post-state still has active pointers emits no commit. -/
theorem step_commit_none (env : GestureEnv) (s : SceneState) (e : PointerEvent)
    (h : (step env s e).1.pointers ≠ []) : (step env s e).2 = none := by
  cases e with
  | down id cx cy => rfl
  | move id cx cy => rfl
  | up id =>
    simp only [step, handlePointerUp] at h ⊢
    split_ifs at h ⊢ with hlen
    · exfalso
      exact h (List.length_eq_zero.mp hlen)
    · rfl

/-- A pointer-down or pointer-move step never empties the registry when it
was nonempty (with gestures enabled it can only insert or overwrite, with
gestures disabled it leaves the registry alone). -/
theorem step_keeps_pointers (env : GestureEnv) (s : SceneState)
    (e : PointerEvent) (he : isUp e = false) (hs : s.pointers ≠ []) :
    (step env s e).1.pointers ≠ [] := by
  cases e with
  | down id cx cy =>
    simp only [step, handlePointerDown]
    split_ifs <;> first | exact hs | exact mapSet_ne_nil _ _ _
  | move id cx cy =>
    simp only [step, handlePointerMove]
    split_ifs with h1 h2 h3
    · exact hs
    · cases env.project (ndcOf env cx cy) <;> exact mapSet_ne_nil _ _ _
    · exact mapSet_ne_nil _ _ _
    · exact mapSet_ne_nil _ _ _
  | up id => simp [isUp] at he

/-- If every nonempty prefix of an event list leaves active pointers, the
run emits no commit. -/
theorem run_no_commit (es : List PointerEvent) (env : GestureEnv)
    (s : SceneState)
    (h : ∀ k, 0 < k → k ≤ es.length → (run env s (es.take k)).1.pointers ≠ []) :
    (run env s es).2 = [] := by
  induction es generalizing s with
  | nil => rfl
  | cons e es ih =>
    have h1 : (step env s e).1.pointers ≠ [] := by
      have := h 1 (by norm_num) (by simp)
      simpa [run] using this
    have hc : (step env s e).2 = none := step_commit_none env s e h1
    have h2 : ∀ k, 0 < k → k ≤ es.length →
        (run env (step env s e).1 (es.take k)).1.pointers ≠ [] := by
      intro k hk hlen
      have := h (k + 1) (by omega) (by simp; omega)
      simpa [run, List.take_succ_cons] using this
    simp [run, hc, ih _ h2]

/-- Overwriting the only entry of a singleton registry with the same key. -/
theorem mapSet_singleton_same (id : ℕ) (q p : Vec2) :
    mapSet [(id, q)] id p = [(id, p)] := by
  simp [mapSet]

/-- Prepending a definite head makes the default of a last-element lookup
irrelevant: the last element of the longer list is the last of the tail, or
the head itself when the tail is empty. -/
theorem getLast_getD_cons (v d : Vec3) (l : List Vec3) :
    (l.getLast?).getD v = ((v :: l).getLast?).getD d := by
  cases l with
  | nil => rfl
  | cons b t =>
    rw [List.getLast?_cons_cons]
    have hne : (b :: t).getLast? ≠ none := by simp
    cases hl : (b :: t).getLast? with
    | none => exact absurd hl hne
    | some x => rfl

/-- A run of single-pointer moves with gestures enabled: the registry stays
the same singleton key, no commit is emitted, the position ends at the last
successful projection (or stays put if none succeeded), and scale and the
rotation values are untouched. -/
theorem run_moves (env : GestureEnv) (pid : ℕ) (ms : List Vec2) :
    ∀ (s : SceneState) (q : Vec2), env.gestureControl = true →
    s.pointers = [(pid, q)] →
    ∃ q2,
      (run env s (ms.map fun w => PointerEvent.move pid w.x w.y)).1.pointers
        = [(pid, q2)] ∧
      (run env s (ms.map fun w => PointerEvent.move pid w.x w.y)).2 = [] ∧
      (run env s (ms.map fun w => PointerEvent.move pid w.x w.y)).1.position
        = ((projList env ms).getLast?).getD s.position ∧
      (run env s (ms.map fun w => PointerEvent.move pid w.x w.y)).1.rotationY
        = s.rotationY ∧
      (run env s (ms.map fun w => PointerEvent.move pid w.x w.y)).1.rotationOffset
        = s.rotationOffset ∧
      (run env s (ms.map fun w => PointerEvent.move pid w.x w.y)).1.scaleX
        = s.scaleX := by
  induction ms with
  | nil =>
    intro s q hf hs
    exact ⟨q, hs, rfl, by simp [projList, run], rfl, rfl, rfl⟩
  | cons w ms ih =>
    intro s q hf hs
    set s1 := (step env s (PointerEvent.move pid w.x w.y)).1 with hs1
    have hstep : s1
        = { s with pointers := [(pid, { x := w.x, y := w.y })],
                   position := (env.project (ndcOf env w.x w.y)).getD s.position } := by
      rw [hs1]
      simp only [step, handlePointerMove, hf]
      rw [if_neg (by simp)]
      rw [hs, mapSet_singleton_same]
      rw [if_pos (by simp)]
      cases hp : env.project (ndcOf env w.x w.y) <;> simp [hp]
    have hnoc : (step env s (PointerEvent.move pid w.x w.y)).2 = none := rfl
    obtain ⟨q2, h1, h2, h3, h4, h5, h6⟩ :=
      ih s1 { x := w.x, y := w.y } hf (by rw [hstep])
    refine ⟨q2, ?_, ?_, ?_, ?_, ?_, ?_⟩
    · simpa [run_cons, hnoc] using h1
    · simp only [List.map_cons, run_cons, hnoc]
      simpa using h2
    · simp only [List.map_cons, run_cons, hnoc]
      rw [show (run env s1 (ms.map fun v => PointerEvent.move pid v.x v.y)).1.position
            = ((projList env ms).getLast?).getD s1.position from h3]
      rw [hstep]
      simp only [projList, List.filterMap_cons]
      cases hp : env.project (ndcOf env w.x w.y) with
      | none => simp [hp]
      | some v =>
        simp only [hp, Option.getD_some]
        exact getLast_getD_cons v s.position _
    · rw [show (run env s (List.map (fun w => PointerEvent.move pid w.x w.y) (w :: ms))).1
            = (run env s1 (ms.map fun v => PointerEvent.move pid v.x v.y)).1 from by
          simp [run_cons]]
      rw [h4, hstep]
    · rw [show (run env s (List.map (fun w => PointerEvent.move pid w.x w.y) (w :: ms))).1
            = (run env s1 (ms.map fun v => PointerEvent.move pid v.x v.y)).1 from by
          simp [run_cons]]
      rw [h5, hstep]
    · rw [show (run env s (List.map (fun w => PointerEvent.move pid w.x w.y) (w :: ms))).1
            = (run env s1 (ms.map fun v => PointerEvent.move pid v.x v.y)).1 from by
          simp [run_cons]]
      rw [h6, hstep]

/-- With gestures enabled, a pointer-down or pointer-move step always
leaves at least one active pointer: both record the event pointer. -/
theorem step_pointers_ne_of_enabled (env : GestureEnv) (s : SceneState)
    (e : PointerEvent) (hflag : env.gestureControl = true)
    (he : isUp e = false) : (step env s e).1.pointers ≠ [] := by
  cases e with
  | down id cx cy =>
    simp only [step, handlePointerDown]
    split_ifs with h1 h2
    · rw [hflag] at h1; simp at h1
    · exact mapSet_ne_nil _ _ _
    · exact mapSet_ne_nil _ _ _
  | move id cx cy =>
    simp only [step, handlePointerMove]
    split_ifs with h1 h2 h3
    · rw [hflag] at h1; simp at h1
    · cases env.project (ndcOf env cx cy) <;> exact mapSet_ne_nil _ _ _
    · exact mapSet_ne_nil _ _ _
    · exact mapSet_ne_nil _ _ _
  | up id => simp [isUp] at he

/-- Claim C5: over one drag-to-release cycle — the registry starts empty,
every proper nonempty prefix of the event sequence leaves active pointers,
and the full sequence returns the count to 0 — exactly one commit event is
emitted, no commit is emitted by any proper prefix (so never during the
active gesture), and for a single-pointer gesture (one pointer-down, moves
of the same pointer, one pointer-up) whose projections were not all misses,
the committed position is the last successful plane projection of the
gesture, with scale and rotation carried over unchanged. -/
theorem C5_commit_protocol (env : GestureEnv) (s : SceneState)
    (es : List PointerEvent)
    (hflag : env.gestureControl = true) (hs : s.pointers = [])
    (hrise : 0 < (run env s (es.take 1)).1.pointers.length)
    (hmid : ∀ k, 0 < k → k < es.length →
      0 < (run env s (es.take k)).1.pointers.length)
    (hend : (run env s es).1.pointers.length = 0) :
    (run env s es).2.length = 1 ∧
    (∀ k, k < es.length → (run env s (es.take k)).2 = []) ∧
    (∀ (pid : ℕ) (c0 : Vec2) (ms : List Vec2) (pt : Vec3),
      es = PointerEvent.down pid c0.x c0.y ::
             ((ms.map fun w => PointerEvent.move pid w.x w.y)
               ++ [PointerEvent.up pid]) →
      (projList env ms).getLast? = some pt →
      (run env s es).2 = [{ position := pt,
                            rotationYDeg := radToDeg s.rotationOffset,
                            scaleX := s.scaleX }]) := by
  have hb : ∀ k, k < es.length → (run env s (es.take k)).2 = [] := by
    intro k hk
    apply run_no_commit
    intro j hj hjle
    have hjk : j ≤ k := le_trans hjle (List.length_take_le k es)
    rw [List.take_take, min_eq_left hjk]
    exact List.length_pos.mp (hmid j hj (lt_of_le_of_lt hjk hk))
  refine ⟨?_, hb, ?_⟩
  · -- exactly one commit over the whole cycle
    have hne : es ≠ [] := by
      intro h
      subst h
      simp [run, hs] at hrise
    obtain ⟨L, e, hsplit⟩ : ∃ L e, es = L ++ [e] :=
      ⟨es.dropLast, es.getLast hne, (List.dropLast_append_getLast hne).symm⟩
    have hLtake : es.take L.length = L := by
      rw [hsplit]
      exact List.take_left L [e]
    have hLlen : L.length + 1 = es.length := by
      rw [hsplit]
      simp
    have hLcom : (run env s L).2 = [] := by
      rw [← hLtake]
      exact hb L.length (by omega)
    have hrun2 : (run env s es).2
        = (step env (run env s L).1 e).2.toList := by
      conv_lhs => rw [hsplit]
      rw [run_append, hLcom]
      simp [run]
    have hrun1 : (run env s es).1 = (step env (run env s L).1 e).1 := by
      conv_lhs => rw [hsplit]
      rw [run_append]
      simp [run]
    have hplast : (step env (run env s L).1 e).1.pointers = [] := by
      rw [← hrun1]
      exact List.length_eq_zero.mp hend
    cases e with
    | down id cx cy =>
      exact absurd hplast (step_pointers_ne_of_enabled env _ _ hflag rfl)
    | move id cx cy =>
      exact absurd hplast (step_pointers_ne_of_enabled env _ _ hflag rfl)
    | up id =>
      have hcond : (mapDelete (run env s L).1.pointers id).length = 0 := by
        simp only [step, handlePointerUp] at hplast
        split_ifs at hplast with h
        · exact h
        · simp at hplast
          rw [hplast]
          rfl
      rw [hrun2]
      simp only [step, handlePointerUp]
      rw [if_pos hcond]
      rfl
  · -- committed position of a single-pointer gesture
    intro pid c0 ms pt hshape hlast
    subst hshape
    have hdown : step env s (PointerEvent.down pid c0.x c0.y)
        = ({ s with pointers := [(pid, c0)] }, none) := by
      simp [step, handlePointerDown, hflag, hs, mapSet]
    obtain ⟨q2, m1, m2, m3, m4, m5, m6⟩ :=
      run_moves env pid ms ({ s with pointers := [(pid, c0)] }) c0 hflag rfl
    set sm := (run env ({ s with pointers := [(pid, c0)] })
      (ms.map fun w => PointerEvent.move pid w.x w.y)).1 with hsm
    have hupstep : step env sm (PointerEvent.up pid)
        = ({ sm with pointers := [] },
           some { position := sm.position,
                  rotationYDeg := radToDeg sm.rotationOffset,
                  scaleX := sm.scaleX }) := by
      simp [step, handlePointerUp, mapDelete, m1, mkCommit]
    rw [run_cons, hdown]
    simp only [Option.toList_none, List.nil_append]
    rw [run_append]
    rw [m2]
    simp only [List.nil_append]
    rw [run_cons, hupstep]
    simp only [Option.toList_some, run_nil, List.append_nil]
    have hpos : sm.position = pt := by
      rw [m3, hlast]
      rfl
    rw [hpos, m5, m6]


/-- A gesture environment for the concrete cycle: gestures enabled and a
raycast that always hits, returning the NDC point laid onto the plane. -/
noncomputable def env5 : GestureEnv :=
  { gestureControl := true, width := 2, height := 2,
    project := fun v => some { x := v.x, y := 0, z := v.y } }

/-- A concrete one-pointer drag-to-release cycle: down, one move, up. -/
noncomputable def es5 : List PointerEvent :=
  [PointerEvent.down 1 1 1, PointerEvent.move 1 2 1, PointerEvent.up 1]

/-- Witness for claim C5: the concrete cycle `es5` under `env5` satisfies
the cycle hypotheses and the commit-protocol conclusion. -/
theorem C5_commit_protocol_witness :
    env5.gestureControl = true ∧ scene1.pointers = [] ∧
    0 < (run env5 scene1 (es5.take 1)).1.pointers.length ∧
    (∀ k, 0 < k → k < es5.length →
      0 < (run env5 scene1 (es5.take k)).1.pointers.length) ∧
    (run env5 scene1 es5).1.pointers.length = 0 ∧
    ((run env5 scene1 es5).2.length = 1 ∧
     (∀ k, k < es5.length → (run env5 scene1 (es5.take k)).2 = []) ∧
     (∀ (pid : ℕ) (c0 : Vec2) (ms : List Vec2) (pt : Vec3),
       es5 = PointerEvent.down pid c0.x c0.y ::
              ((ms.map fun w => PointerEvent.move pid w.x w.y)
                ++ [PointerEvent.up pid]) →
       (projList env5 ms).getLast? = some pt →
       (run env5 scene1 es5).2 = [{ position := pt,
                                    rotationYDeg := radToDeg scene1.rotationOffset,
                                    scaleX := scene1.scaleX }])) := by
  have h1 : env5.gestureControl = true := rfl
  have h2 : scene1.pointers = [] := rfl
  have h3 : 0 < (run env5 scene1 (es5.take 1)).1.pointers.length := by
    simp [es5, run, step, handlePointerDown, env5, scene1, initialScene, mapSet]
  have h4 : ∀ k, 0 < k → k < es5.length →
      0 < (run env5 scene1 (es5.take k)).1.pointers.length := by
    intro k hk0 hk3
    have hlen : es5.length = 3 := rfl
    rw [hlen] at hk3
    interval_cases k
    · exact h3
    · simp [es5, run, step, handlePointerDown, handlePointerMove, env5, scene1,
            initialScene, mapSet]
  have h5 : (run env5 scene1 es5).1.pointers.length = 0 := by
    simp [es5, run, step, handlePointerDown, handlePointerMove, handlePointerUp,
          env5, scene1, initialScene, mapSet, mapDelete]
  exact ⟨h1, h2, h3, h4, h5, C5_commit_protocol env5 scene1 es5 h1 h2 h3 h4 h5⟩

end ARApp
